import Mathlib

/-!
# Azure Event Hubs binding (`pkg/bindings/eventhubs/eventhubs.go`)

A shallow embedding of the binding's three methods, `Init`, `Write` and `Read`.

* The streaming SDK (`eventhub.NewHubFromConnectionString`, `hub.Send`,
  `hub.GetRuntimeInformation`, `hub.Receive`, `hub.Close`) is external: it is a
  record of state-passing functions over an arbitrary client state `κ`, so a
  call may succeed or fail depending on everything that happened before.
* Every call the binding makes on the outside world is appended to an effect
  log, in program order; the theorems read the log.
* `encoding/json` is modelled on JSON documents: `jsonMarshal` produces the
  document, `jsonUnmarshal` decodes it into `AzureEventHubsMetadata` the way the
  standard decoder treats a struct with one string field.
* `http.DefaultTransport` is a variable of interface type; the unchecked type
  assertion `http.DefaultTransport.(*http.Transport)` panics when it holds
  anything else, and the model keeps that path.
-/

namespace EventHubs

/-! ## Values -/

/-- A Go byte slice. -/
abbrev Bytes := List (Fin 256)

/-- A Go `error` value that is not nil: the error of `json.Marshal` on a value it
cannot encode, the `*json.UnmarshalTypeError` of `json.Unmarshal` with the kind of
the offending JSON value, or an error of the streaming client. -/
inductive GoError where
  | jsonUnsupportedType
  | jsonUnmarshalType (value : String)
  | sdk (code : Nat)
  deriving DecidableEq

/-- The errors that come from interpreting the stored configuration. -/
def GoError.isConfigError : GoError → Bool
  | .jsonUnsupportedType => true
  | .jsonUnmarshalType _ => true
  | .sdk _ => false

/-- A JSON document. Object members are kept in document order. -/
inductive Json where
  | null
  | bool (b : Bool)
  | num (n : Int)
  | str (s : String)
  | arr (items : List Json)
  | obj (members : List (String × Json))

/-- Modelled from the spec: the declaration of `bindings.Metadata` is not part of
the sources; its `ConnectionInfo` is "opaque connection metadata (mapping of
string keys to values)", held in an `interface{}`.  `GoValue` lists the dynamic
values such a field can hold, split the way `json.Marshal` treats them:
* `nil`: the nil interface, or a nil pointer;
* `bool`, `number`: a boolean, a number;
* `str s`: a string that is valid UTF-8, `s` being its text;
* `nilSlice`: a nil slice, of any element type, `[]byte` included;
* `bytes data`: a `[]byte` that is not nil;
* `slice items`: any other slice that is not nil, or an array;
* `nilMap`: a nil map;
* `map entries`: a map with string keys that is not nil;
* `encoded doc`: a value of any other kind that `json.Marshal` accepts (a struct,
  a pointer that is not nil, a `json.Marshaler`, a string with bytes that are not
  valid UTF-8, ...), given by the document `json.Marshal` writes for it;
* `unsupported`: a value `json.Marshal` rejects (a channel, a function, a
  complex number, a NaN, a map whose keys are not strings, ...). -/
inductive GoValue where
  | nil
  | bool (b : Bool)
  | number (n : Int)
  | str (s : String)
  | nilSlice
  | bytes (data : Bytes)
  | slice (items : List GoValue)
  | nilMap
  | map (entries : List (String × GoValue))
  | encoded (doc : Json)
  | unsupported

/-- Modelled from the spec: `bindings.Metadata`, declared outside the sources. -/
structure Metadata where
  Name : String
  ConnectionInfo : GoValue
  Properties : GoValue

/-- Modelled from the spec: `bindings.WriteRequest`, "a byte payload to be sent". -/
structure WriteRequest where
  Data : Bytes

/-- Modelled from the spec: `bindings.ReadResponse`, "a byte payload delivered to
the handler". -/
structure ReadResponse where
  Data : Bytes

/-- AzureEventHubs allows sending/receiving Azure Event Hubs events. -/
structure AzureEventHubs where
  Spec : Metadata

/-- AzureEventHubsMetadata is Azure Event Hubs connection metadata. -/
structure AzureEventHubsMetadata where
  ConnectionString : String
  deriving DecidableEq

/-! ## `encoding/json` -/

/-- The order of Go strings, `a < b`: they are compared byte by byte, which for
valid UTF-8 is the order of the code points. -/
def keyLess : List Char → List Char → Bool
  | [], [] => false
  | [], _ :: _ => true
  | _ :: _, [] => false
  | a :: as, b :: bs =>
    decide (a.toNat < b.toNat) || (decide (a.toNat = b.toNat) && keyLess as bs)

/-- Insertion of one member into a list of members sorted by key. -/
def insertMember (m : String × Json) : List (String × Json) → List (String × Json)
  | [] => [m]
  | x :: xs => if keyLess m.1.data x.1.data then m :: x :: xs else x :: insertMember m xs

/-- The encoder writes the members of a map in ascending key order. -/
def sortMembers : List (String × Json) → List (String × Json)
  | [] => []
  | x :: xs => insertMember x (sortMembers xs)

/-- The alphabet of `base64.StdEncoding`. -/
def base64Alphabet : List Char :=
  "ABCDEFGHIJKLMNOPQRSTUVWXYZabcdefghijklmnopqrstuvwxyz0123456789+/".data

/-- The character for a six-bit value. -/
def base64Char (n : Nat) : Char := base64Alphabet.getD n 'A'

/-- The standard base64 encoding, with padding: the text `json.Marshal` writes for
a `[]byte`. -/
def base64Encode : List (Fin 256) → List Char
  | [] => []
  | [a] => [base64Char (a.val / 4), base64Char (a.val % 4 * 16), '=', '=']
  | [a, b] =>
    [base64Char (a.val / 4), base64Char (a.val % 4 * 16 + b.val / 16),
     base64Char (b.val % 16 * 4), '=']
  | a :: b :: c :: rest =>
    base64Char (a.val / 4) :: base64Char (a.val % 4 * 16 + b.val / 16) ::
      base64Char (b.val % 16 * 4 + c.val / 64) :: base64Char (c.val % 64) ::
      base64Encode rest

mutual
/-- The document `json.Marshal` writes for a value, or its error.  A nil slice and
a nil map are written as `null`, a `[]byte` as a base64 string, a map with its
keys in ascending order. -/
def jsonMarshal : GoValue → Except GoError Json
  | .nil => .ok .null
  | .bool b => .ok (.bool b)
  | .number n => .ok (.num n)
  | .str s => .ok (.str s)
  | .nilSlice => .ok .null
  | .bytes data => .ok (.str (String.mk (base64Encode data)))
  | .nilMap => .ok .null
  | .encoded doc => .ok doc
  | .slice items =>
    match marshalItems items with
    | .ok js => .ok (.arr js)
    | .error e => .error e
  | .map entries =>
    match marshalEntries entries with
    | .ok ms => .ok (.obj (sortMembers ms))
    | .error e => .error e
  | .unsupported => .error .jsonUnsupportedType
/-- The elements of a slice. -/
def marshalItems : List GoValue → Except GoError (List Json)
  | [] => .ok []
  | v :: vs =>
    match jsonMarshal v with
    | .error e => .error e
    | .ok j =>
      match marshalItems vs with
      | .error e => .error e
      | .ok js => .ok (j :: js)
/-- The entries of a map. -/
def marshalEntries : List (String × GoValue) → Except GoError (List (String × Json))
  | [] => .ok []
  | (k, v) :: es =>
    match jsonMarshal v with
    | .error e => .error e
    | .ok j =>
      match marshalEntries es with
      | .error e => .error e
      | .ok ms => .ok ((k, j) :: ms)
end

/-- One character of a field name against one character of a key, as
`equalFoldRight` compares them: equal, equal up to ASCII letter case, or the
key has the long s (U+017F) for `s` / the Kelvin sign (U+212A) for `k`. -/
def foldChar (n c : Char) : Bool :=
  if c.toNat < 128 then
    n == c || (n.isAlpha && n.toUpper == c.toUpper && c.isAlpha)
  else
    ((n == 's' || n == 'S') && c.toNat == 0x17F) ||
    ((n == 'k' || n == 'K') && c.toNat == 0x212A)

/-- Case-folded comparison of a field name with an object key. -/
def equalFold : List Char → List Char → Bool
  | [], [] => true
  | n :: ns, c :: cs => foldChar n c && equalFold ns cs
  | _, _ => false

/-- The JSON name of the only field of `AzureEventHubsMetadata`. -/
def fieldName : String := "connectionString"

/-- Whether the decoder binds an object key to the `ConnectionString` field: an
exact match, or else a case-insensitive one. -/
def matchesField (key : String) : Bool :=
  key == fieldName || equalFold fieldName.data key.data

/-- The decoder remembers the first error only. -/
def saveError (saved : Option GoError) (e : GoError) : Option GoError :=
  match saved with
  | some first => some first
  | none => some e

/-- Decoding one JSON value into the string field. -/
def storeField (st : AzureEventHubsMetadata × Option GoError) :
    Json → AzureEventHubsMetadata × Option GoError
  | .str s => ({ ConnectionString := s }, st.2)
  | .null => st
  | .bool _ => (st.1, saveError st.2 (.jsonUnmarshalType "bool"))
  | .num _ => (st.1, saveError st.2 (.jsonUnmarshalType "number"))
  | .arr _ => (st.1, saveError st.2 (.jsonUnmarshalType "array"))
  | .obj _ => (st.1, saveError st.2 (.jsonUnmarshalType "object"))

/-- Decoding the members of an object, in document order. -/
def decodeMembers (st : AzureEventHubsMetadata × Option GoError) :
    List (String × Json) → AzureEventHubsMetadata × Option GoError
  | [] => st
  | (k, v) :: ms =>
    if matchesField k then decodeMembers (storeField st v) ms else decodeMembers st ms

/-- The result of `json.Unmarshal(b, &connInfo)` on a zero-valued `connInfo`:
the struct as the decoder leaves it, and the returned error. -/
def jsonUnmarshal : Json → AzureEventHubsMetadata × Option GoError
  | .null => ({ ConnectionString := "" }, none)
  | .bool _ => ({ ConnectionString := "" }, some (.jsonUnmarshalType "bool"))
  | .num _ => ({ ConnectionString := "" }, some (.jsonUnmarshalType "number"))
  | .str _ => ({ ConnectionString := "" }, some (.jsonUnmarshalType "string"))
  | .arr _ => ({ ConnectionString := "" }, some (.jsonUnmarshalType "array"))
  | .obj ms => decodeMembers ({ ConnectionString := "" }, none) ms

/-! ## The process and the streaming client -/

/-- The fields of `tls.Config` the model tracks; the zero value has verification
on and the other settings unset. -/
structure TlsConfig where
  InsecureSkipVerify : Bool
  ServerName : String
  MinVersion : Nat
  deriving DecidableEq

/-- The fields of `http.Transport` the model tracks: the TLS configuration (a
pointer, possibly nil) and one setting the binding never touches. -/
structure Transport where
  TLSClientConfig : Option TlsConfig
  MaxIdleConns : Nat
  deriving DecidableEq

/-- The dynamic value of an `http.RoundTripper`: an `*http.Transport`, or a
value of some other implementing type. -/
inductive RoundTripper where
  | transport (t : Transport)
  | other (id : Nat)
  deriving DecidableEq

/-- A handle on a connection, `*eventhub.Hub`. -/
structure Hub where
  id : Nat
  deriving DecidableEq

/-- The fields of `eventhub.Event` the model tracks. -/
structure Event where
  Data : Bytes
  PartitionKey : Option String
  ID : String
  deriving DecidableEq

/-- The result of `hub.GetRuntimeInformation`. -/
structure HubRuntimeInformation where
  Path : String
  PartitionCount : Nat
  PartitionIDs : List String
  deriving DecidableEq

/-- The options `hub.Receive` accepts. -/
inductive ReceiveOption where
  | ReceiveWithLatestOffset
  | ReceiveWithStartingOffset (offset : String)
  | ReceiveWithConsumerGroup (name : String)
  deriving DecidableEq

/-- The handle `hub.Receive` returns for one partition. -/
structure ListenerHandle where
  id : Nat
  deriving DecidableEq

/-- The signals named in the source. -/
inductive Signal where
  | Interrupt
  | Kill
  deriving DecidableEq

/-- The handler passed to `Read`, a function that may keep state of its own
(`σ`) and returns a Go `error`. -/
abbrev Handler (σ : Type) := ReadResponse → σ → Option GoError × σ

/-- The receive callback type of the SDK, `func(context.Context, *eventhub.Event) error`;
the event pointer may be nil. -/
abbrev Callback (σ : Type) := Option Event → σ → Option GoError × σ

/-- What the binding does to the outside world, in program order. -/
inductive Effect (σ : Type) where
  | setTLSClientConfig (cfg : TlsConfig)
  | newHub (connStr : String)
  | send (hub : Hub) (event : Event)
  | getRuntimeInformation (hub : Hub)
  | receive (hub : Hub) (partitionID : String) (callback : Callback σ)
      (opts : List ReceiveOption)
  | signalNotify (signals : List Signal)
  | signalWait
  | signalReceived (sig : Signal)
  | close (hub : Hub)
  | logInfo (msg : String)

/-- The streaming SDK, as far as the binding calls it.  Each operation reads and
updates the client state `κ`. -/
structure StreamClient (κ : Type) where
  NewHubFromConnectionString : String → κ → Except GoError Hub × κ
  Send : Hub → Event → κ → Option GoError × κ
  GetRuntimeInformation : Hub → κ → Except GoError HubRuntimeInformation × κ
  Receive : Hub → String → List ReceiveOption → κ → Except GoError ListenerHandle × κ
  Close : Hub → κ → Option GoError × κ

/-- The state outside the binding: the process-wide `http.DefaultTransport`, the
state of the streaming client, and the log of effects so far. -/
structure World (κ σ : Type) where
  DefaultTransport : RoundTripper
  client : κ
  effects : List (Effect σ)

/-- How a call ends: it returns (with a Go `error`, `none` for nil), it panics,
or it stays blocked forever. -/
inductive Outcome where
  | returned (err : Option GoError)
  | panicked
  | blocked
  deriving DecidableEq

/-- The configuration `&tls.Config{InsecureSkipVerify: true}`. -/
def insecureTLS : TlsConfig :=
  { InsecureSkipVerify := true, ServerName := "", MinVersion := 0 }

/-- The transport after `TLSClientConfig = &tls.Config{InsecureSkipVerify: true}`:
the configuration is replaced whole, the other fields stay. -/
def withInsecureTLS (t : Transport) : RoundTripper :=
  .transport { t with TLSClientConfig := some insecureTLS }

/-- The world after one more effect, with the client in state `k`. -/
def World.step {κ σ : Type} (w : World κ σ) (k : κ) (e : Effect σ) : World κ σ :=
  { w with client := k, effects := w.effects ++ [e] }

/-! ## The binding -/

/-- NewAzureEventHubs returns a new Azure Event hubs instance. -/
def NewAzureEventHubs {κ σ : Type} (w : World κ σ) : AzureEventHubs × World κ σ :=
  ({ Spec := { Name := "", ConnectionInfo := .nil, Properties := .nil } }, w)

/-- Init performs metadata init. -/
def Init {κ σ : Type} (_a : AzureEventHubs) (metadata : Metadata) (w : World κ σ) :
    Outcome × AzureEventHubs × World κ σ :=
  (.returned none, { Spec := metadata }, w)

/-- Write posts an event hubs message.  The receiver is a binding that exists;
`req` is the request pointer, `none` for nil.  The first statement asserts that
`http.DefaultTransport` is an `*http.Transport`. -/
def Write {κ σ : Type} (a : AzureEventHubs) (req : Option WriteRequest)
    (sdk : StreamClient κ) (w : World κ σ) : Outcome × World κ σ :=
  match w.DefaultTransport with
  | .other _ => (.panicked, w)
  | .transport t =>
    let w : World κ σ :=
      { w with
        DefaultTransport := withInsecureTLS t
        effects := w.effects ++ [.setTLSClientConfig insecureTLS] }
    match jsonMarshal a.Spec.ConnectionInfo with
    | .error err => (.returned (some err), w)
    | .ok b =>
      match jsonUnmarshal b with
      | (_, some err) => (.returned (some err), w)
      | (connInfo, none) =>
        let connStr := connInfo.ConnectionString
        match sdk.NewHubFromConnectionString connStr w.client with
        | (.error err, k) => (.returned (some err), w.step k (.newHub connStr))
        | (.ok hub, k) =>
          let w := w.step k (.newHub connStr)
          match req with
          | none => (.panicked, w)
          | some r =>
            let event : Event := { Data := r.Data, PartitionKey := none, ID := "" }
            match sdk.Send hub event w.client with
            | (some err, k) => (.returned (some err), w.step k (.send hub event))
            | (none, k) =>
              let w := w.step k (.send hub event)
              (.returned none,
                { w with effects := w.effects ++ [.logInfo "EventHubs event sent successfully"] })

/-- The closure `callback` of `Read`. -/
def callback {σ : Type} (handler : Handler σ) : Callback σ :=
  fun event st =>
    match event with
    | some ev => (none, (handler { Data := ev.Data } st).2)
    | none => (none, st)

/-- The loop of `Read` over `runtimeInfo.PartitionIDs`: the error it returns
with, if any, and the world it leaves. -/
def receiveLoop {κ σ : Type} (sdk : StreamClient κ) (hub : Hub) (cb : Callback σ) :
    List String → World κ σ → Option GoError × World κ σ
  | [], w => (none, w)
  | partitionID :: rest, w =>
    match sdk.Receive hub partitionID [.ReceiveWithLatestOffset] w.client with
    | (.error err, k) =>
      (some err, w.step k (.receive hub partitionID cb [.ReceiveWithLatestOffset]))
    | (.ok _, k) =>
      receiveLoop sdk hub cb rest
        (w.step k (.receive hub partitionID cb [.ReceiveWithLatestOffset]))

/-- Read reads from eventhubs.  The receiver is a binding that exists and `handler`
a function; `interrupt` is the signal delivered on `signalChan`, `none` when no
signal ever arrives, in which case the receive from the channel never completes.
The source comment calls `Read` non-blocking; its body blocks on the channel, and
the model follows the body. -/
def Read {κ σ : Type} (a : AzureEventHubs) (handler : Handler σ)
    (sdk : StreamClient κ) (interrupt : Option Signal) (w : World κ σ) :
    Outcome × World κ σ :=
  match w.DefaultTransport with
  | .other _ => (.panicked, w)
  | .transport t =>
    let w : World κ σ :=
      { w with
        DefaultTransport := withInsecureTLS t
        effects := w.effects ++ [.setTLSClientConfig insecureTLS] }
    match jsonMarshal a.Spec.ConnectionInfo with
    | .error err => (.returned (some err), w)
    | .ok b =>
      match jsonUnmarshal b with
      | (_, some err) => (.returned (some err), w)
      | (connInfo, none) =>
        let connStr := connInfo.ConnectionString
        match sdk.NewHubFromConnectionString connStr w.client with
        | (.error err, k) => (.returned (some err), w.step k (.newHub connStr))
        | (.ok hub, k) =>
          let w := w.step k (.newHub connStr)
          match sdk.GetRuntimeInformation hub w.client with
          | (.error err, k) => (.returned (some err), w.step k (.getRuntimeInformation hub))
          | (.ok runtimeInfo, k) =>
            let w := w.step k (.getRuntimeInformation hub)
            match receiveLoop sdk hub (callback handler) runtimeInfo.PartitionIDs w with
            | (some err, w) => (.returned (some err), w)
            | (none, w) =>
              let w : World κ σ :=
                { w with
                  effects := w.effects ++ [.signalNotify [.Interrupt, .Kill], .signalWait] }
              match interrupt with
              | none => (.blocked, w)
              | some sig =>
                let w : World κ σ := { w with effects := w.effects ++ [.signalReceived sig] }
                let k := (sdk.Close hub w.client).2
                (.returned none, w.step k (.close hub))

/-! ## Vocabulary of the statements -/

/-- The configuration is well formed and its connection string is `s`: the
`ConnectionInfo` serialises, and the document decodes without error into a
struct whose `ConnectionString` is `s`. -/
def ConnectionStringIs (ci : GoValue) (s : String) : Prop :=
  ∃ b, jsonMarshal ci = .ok b ∧ jsonUnmarshal b = ({ ConnectionString := s }, none)

/-- The event `Write` builds for a payload. -/
def eventOf (d : Bytes) : Event := { Data := d, PartitionKey := none, ID := "" }

/-- The registration `Read` issues for one partition. -/
def registration {σ : Type} (hub : Hub) (handler : Handler σ) (partitionID : String) :
    Effect σ :=
  .receive hub partitionID (callback handler) [.ReceiveWithLatestOffset]

/-- The state of the client after it has accepted, one after the other, a
subscription to each of the listed partitions; `none` when it refuses one. -/
def subscribeAll {κ : Type} (sdk : StreamClient κ) (hub : Hub) : List String → κ → Option κ
  | [], k => some k
  | p :: ps, k =>
    match sdk.Receive hub p [.ReceiveWithLatestOffset] k with
    | (.ok _, k1) => subscribeAll sdk hub ps k1
    | (.error _, _) => none

/-- The client delivering a sequence of events to a callback, one after the
other: the values the callback returned and the handler state at the end. -/
def deliver {σ : Type} (cb : Callback σ) : List (Option Event) → σ → List (Option GoError) × σ
  | [], st => ([], st)
  | ev :: evs, st =>
    ((cb ev st).1 :: (deliver cb evs (cb ev st).2).1, (deliver cb evs (cb ev st).2).2)

/-- The effects of `Read` up to and including its subscriptions to `ps`. -/
def subscribed {σ : Type} (before : List (Effect σ)) (s : String) (hub : Hub)
    (handler : Handler σ) (ps : List String) : List (Effect σ) :=
  before ++ [.setTLSClientConfig insecureTLS, .newHub s, .getRuntimeInformation hub] ++
    ps.map (registration hub handler)

/-- A `ConnectionInfo` without a `connectionString` field: the nil value, a nil
map, or a map none of whose keys the decoder binds to the field (the empty map
among them). -/
def lacksField : GoValue → Bool
  | .nil => true
  | .nilMap => true
  | .map entries => entries.all (fun e => !matchesField e.1)
  | _ => false

/-- A JSON value the decoder stores into a string field without complaint. -/
def storable : Json → Bool
  | .str _ => true
  | .null => true
  | _ => false

/-- A document that does not have the expected shape: it is neither an object
nor `null`, or it is an object in which a key bound to `connectionString`
carries a value that is neither a string nor `null`. -/
def malformedDoc : Json → Bool
  | .null => false
  | .obj members => members.any (fun m => matchesField m.1 && !storable m.2)
  | _ => true

/-- A stored `ConnectionInfo` that cannot be interpreted: it cannot be
serialised, or its document is malformed. -/
def malformed (ci : GoValue) : Bool :=
  match jsonMarshal ci with
  | .error _ => true
  | .ok doc => malformedDoc doc

/-! ## Sample inputs -/

/-- A client that keeps count of the calls made on it.  It refuses the empty
connection string, names a hub after the length of its connection string,
refuses an empty payload, fails the partition query on hub 1, refuses partition
"1" on hub 2, and reports an error from every `Close`. -/
def simClient : StreamClient Nat where
  NewHubFromConnectionString := fun s k =>
    if s = "" then (.error (.sdk 1), k + 1) else (.ok { id := s.length }, k + 1)
  Send := fun _ ev k => if ev.Data = [] then (some (.sdk 2), k + 1) else (none, k + 1)
  GetRuntimeInformation := fun hub k =>
    if hub.id = 1 then (.error (.sdk 3), k + 1)
    else (.ok { Path := "hub", PartitionCount := 3, PartitionIDs := ["0", "1", "2"] }, k + 1)
  Receive := fun hub p _ k =>
    if hub.id = 2 ∧ p = "1" then (.error (.sdk 4), k + 1) else (.ok { id := k }, k + 1)
  Close := fun _ k => (some (.sdk 5), k + 1)

/-- A client that accepts every call, the empty connection string included, and
reports two partitions. -/
def lenientClient : StreamClient Nat where
  NewHubFromConnectionString := fun _ k => (.ok { id := 0 }, k + 1)
  Send := fun _ _ k => (none, k + 1)
  GetRuntimeInformation := fun _ k =>
    (.ok { Path := "hub", PartitionCount := 2, PartitionIDs := ["0", "1"] }, k + 1)
  Receive := fun _ _ _ k => (.ok { id := k }, k + 1)
  Close := fun _ k => (none, k + 1)

/-- The transport of a fresh process. -/
def freshTransport : Transport := { TLSClientConfig := none, MaxIdleConns := 100 }

/-- A fresh process: the standard transport, no call made yet. -/
def freshWorld : World Nat (List Bytes) :=
  { DefaultTransport := .transport freshTransport, client := 0, effects := [] }

/-- A process in which `http.DefaultTransport` has been replaced by a
`RoundTripper` of another type. -/
def wrappedWorld : World Nat (List Bytes) :=
  { DefaultTransport := .other 1, client := 0, effects := [] }

/-- A binding whose `ConnectionInfo` is the given value. -/
def bindingOf (ci : GoValue) : AzureEventHubs :=
  { Spec := { Name := "eventhubs", ConnectionInfo := ci, Properties := .nil } }

/-- A binding configured with `connectionString: <s>`. -/
def configured (s : String) : AzureEventHubs :=
  bindingOf (.map [("connectionString", .str s)])

/-- A handler that records each payload and reports an error every time. -/
def failingHandler : Handler (List Bytes) :=
  fun r st => (some (.sdk 7), st ++ [r.Data])

/-- The world in which `Read`, run on `configured "abc"` against `simClient` in a
fresh process, returns after an interrupt. -/
def interruptedWorld : World Nat (List Bytes) :=
  { DefaultTransport := withInsecureTLS freshTransport
    client := 6
    effects := [.setTLSClientConfig insecureTLS, .newHub "abc",
      .getRuntimeInformation { id := 3 },
      .receive { id := 3 } "0" (callback failingHandler) [.ReceiveWithLatestOffset],
      .receive { id := 3 } "1" (callback failingHandler) [.ReceiveWithLatestOffset],
      .receive { id := 3 } "2" (callback failingHandler) [.ReceiveWithLatestOffset],
      .signalNotify [.Interrupt, .Kill], .signalWait, .signalReceived .Interrupt,
      .close { id := 3 }] }

/-! ## The configuration round trip -/

theorem mem_insertMember (m x : String × Json) :
    ∀ xs : List (String × Json), m ∈ insertMember x xs ↔ m = x ∨ m ∈ xs
  | [] => by simp [insertMember]
  | y :: ys => by
    by_cases h : keyLess x.1.data y.1.data = true
    · simp [insertMember, h]
    · simp only [Bool.not_eq_true] at h
      simp only [insertMember, h, Bool.false_eq_true, if_false, List.mem_cons,
        mem_insertMember m x ys]
      tauto

theorem mem_sortMembers (m : String × Json) :
    ∀ xs : List (String × Json), m ∈ sortMembers xs ↔ m ∈ xs
  | [] => by simp [sortMembers]
  | y :: ys => by
    simp [sortMembers, mem_insertMember, mem_sortMembers m ys]

theorem marshalEntries_members :
    ∀ (es : List (String × GoValue)) (ms : List (String × Json)),
      marshalEntries es = .ok ms →
      (∀ m ∈ ms, ∃ e ∈ es, e.1 = m.1 ∧ jsonMarshal e.2 = .ok m.2) ∧
      (∀ e ∈ es, ∃ m ∈ ms, m.1 = e.1 ∧ jsonMarshal e.2 = .ok m.2)
  | [], ms, h => by
    simp only [marshalEntries, Except.ok.injEq] at h
    subst h
    simp
  | (k, v) :: es, ms, h => by
    simp only [marshalEntries] at h
    cases hv : jsonMarshal v with
    | error e => simp [hv] at h
    | ok j =>
      cases hr : marshalEntries es with
      | error e => simp [hv, hr] at h
      | ok ms1 =>
        simp only [hv, hr, Except.ok.injEq] at h
        subst h
        obtain ⟨ih1, ih2⟩ := marshalEntries_members es ms1 hr
        constructor
        · intro m hmem
          rcases List.mem_cons.mp hmem with rfl | hmem
          · exact ⟨(k, v), by simp, rfl, hv⟩
          · obtain ⟨e, he, hk⟩ := ih1 m hmem
            exact ⟨e, List.mem_cons_of_mem _ he, hk⟩
        · intro e hmem
          rcases List.mem_cons.mp hmem with rfl | hmem
          · exact ⟨(k, j), by simp, rfl, hv⟩
          · obtain ⟨m, hm, hk⟩ := ih2 e hmem
            exact ⟨m, List.mem_cons_of_mem _ hm, hk⟩

theorem decodeMembers_skip (st : AzureEventHubsMetadata × Option GoError) :
    ∀ ms : List (String × Json), (∀ m ∈ ms, matchesField m.1 = false) →
      decodeMembers st ms = st
  | [], _ => rfl
  | (k, v) :: ms, h => by
    have hk : matchesField k = false := h (k, v) (by simp)
    simp only [decodeMembers, hk, Bool.false_eq_true, if_false]
    exact decodeMembers_skip st ms (fun m hm => h m (List.mem_cons_of_mem _ hm))

theorem storeField_error (st : AzureEventHubsMetadata × Option GoError) (v : Json) :
    (storeField st v).2 = none ↔ st.2 = none ∧ storable v = true := by
  rcases st with ⟨c, eo⟩
  cases v <;> cases eo <;> simp [storeField, storable, saveError]

theorem decodeMembers_error :
    ∀ (ms : List (String × Json)) (st : AzureEventHubsMetadata × Option GoError),
      (decodeMembers st ms).2 = none ↔
        st.2 = none ∧ ms.any (fun m => matchesField m.1 && !storable m.2) = false
  | [], st => by simp [decodeMembers]
  | (k, v) :: ms, st => by
    by_cases hk : matchesField k = true
    · simp only [decodeMembers, hk, if_true, decodeMembers_error ms, storeField_error,
        List.any_cons, Bool.true_and, Bool.or_eq_false_iff, Bool.not_eq_false']
      tauto
    · simp only [Bool.not_eq_true] at hk
      simp [decodeMembers, hk, decodeMembers_error ms]

theorem storeField_config (st : AzureEventHubsMetadata × Option GoError) (v : Json)
    (h : ∀ e, st.2 = some e → e.isConfigError = true) :
    ∀ e, (storeField st v).2 = some e → e.isConfigError = true := by
  rcases st with ⟨c, eo⟩
  cases v <;> cases eo <;> simp_all [storeField, saveError, GoError.isConfigError]

theorem decodeMembers_config :
    ∀ (ms : List (String × Json)) (st : AzureEventHubsMetadata × Option GoError),
      (∀ e, st.2 = some e → e.isConfigError = true) →
      ∀ e, (decodeMembers st ms).2 = some e → e.isConfigError = true
  | [], st, h => by simpa [decodeMembers] using h
  | (k, v) :: ms, st, h => by
    by_cases hk : matchesField k = true
    · simp only [decodeMembers, hk, if_true]
      exact decodeMembers_config ms _ (storeField_config st v h)
    · simp only [Bool.not_eq_true] at hk
      simp only [decodeMembers, hk, Bool.false_eq_true, if_false]
      exact decodeMembers_config ms st h

/-- The decoder reports an error exactly on the malformed documents. -/
theorem jsonUnmarshal_error (doc : Json) :
    (jsonUnmarshal doc).2 = none ↔ malformedDoc doc = false := by
  cases doc <;> simp [jsonUnmarshal, malformedDoc, decodeMembers_error]

/-- Every error of the decoder is a configuration error. -/
theorem jsonUnmarshal_config (doc : Json) (e : GoError) (h : (jsonUnmarshal doc).2 = some e) :
    e.isConfigError = true := by
  cases doc with
  | obj ms => exact decodeMembers_config ms _ (by simp) e h
  | null => simp [jsonUnmarshal] at h
  | bool _ => simp only [jsonUnmarshal, Option.some.injEq] at h; subst h; rfl
  | num _ => simp only [jsonUnmarshal, Option.some.injEq] at h; subst h; rfl
  | str _ => simp only [jsonUnmarshal, Option.some.injEq] at h; subst h; rfl
  | arr _ => simp only [jsonUnmarshal, Option.some.injEq] at h; subst h; rfl

mutual
theorem jsonMarshal_config :
    ∀ (v : GoValue) (e : GoError), jsonMarshal v = .error e → e = .jsonUnsupportedType
  | .nil, e, h => by simp [jsonMarshal] at h
  | .bool _, e, h => by simp [jsonMarshal] at h
  | .number _, e, h => by simp [jsonMarshal] at h
  | .str _, e, h => by simp [jsonMarshal] at h
  | .nilSlice, e, h => by simp [jsonMarshal] at h
  | .bytes _, e, h => by simp [jsonMarshal] at h
  | .nilMap, e, h => by simp [jsonMarshal] at h
  | .encoded _, e, h => by simp [jsonMarshal] at h
  | .unsupported, e, h => by
    simp only [jsonMarshal, Except.error.injEq] at h
    exact h.symm
  | .slice items, e, h => by
    simp only [jsonMarshal] at h
    cases hr : marshalItems items with
    | error e1 =>
      rw [hr] at h
      simp only [Except.error.injEq] at h
      subst h
      exact marshalItems_config items _ hr
    | ok js => rw [hr] at h; simp at h
  | .map entries, e, h => by
    simp only [jsonMarshal] at h
    cases hr : marshalEntries entries with
    | error e1 =>
      rw [hr] at h
      simp only [Except.error.injEq] at h
      subst h
      exact marshalEntries_config entries _ hr
    | ok js => rw [hr] at h; simp at h
theorem marshalItems_config :
    ∀ (vs : List GoValue) (e : GoError), marshalItems vs = .error e → e = .jsonUnsupportedType
  | [], e, h => by simp [marshalItems] at h
  | v :: vs, e, h => by
    simp only [marshalItems] at h
    cases hv : jsonMarshal v with
    | error e1 =>
      rw [hv] at h
      simp only [Except.error.injEq] at h
      subst h
      exact jsonMarshal_config v _ hv
    | ok j =>
      rw [hv] at h
      cases hr : marshalItems vs with
      | error e1 =>
        rw [hr] at h
        simp only [Except.error.injEq] at h
        subst h
        exact marshalItems_config vs _ hr
      | ok js => rw [hr] at h; simp at h
theorem marshalEntries_config :
    ∀ (es : List (String × GoValue)) (e : GoError),
      marshalEntries es = .error e → e = .jsonUnsupportedType
  | [], e, h => by simp [marshalEntries] at h
  | (k, v) :: es, e, h => by
    simp only [marshalEntries] at h
    cases hv : jsonMarshal v with
    | error e1 =>
      rw [hv] at h
      simp only [Except.error.injEq] at h
      subst h
      exact jsonMarshal_config v _ hv
    | ok j =>
      rw [hv] at h
      cases hr : marshalEntries es with
      | error e1 =>
        rw [hr] at h
        simp only [Except.error.injEq] at h
        subst h
        exact marshalEntries_config es _ hr
      | ok js => rw [hr] at h; simp at h
end

/-- A serialisable `ConnectionInfo` without the field decodes to the empty
connection string. -/
theorem lacksField_empty (ci : GoValue) (doc : Json) (hl : lacksField ci = true)
    (hm : jsonMarshal ci = .ok doc) : ConnectionStringIs ci "" := by
  refine ⟨doc, hm, ?_⟩
  cases ci with
  | nil =>
    simp only [jsonMarshal, Except.ok.injEq] at hm
    subst hm
    rfl
  | map es =>
    simp only [jsonMarshal] at hm
    cases hr : marshalEntries es with
    | error e => simp [hr] at hm
    | ok ms =>
      simp only [hr, Except.ok.injEq] at hm
      subst hm
      simp only [jsonUnmarshal]
      apply decodeMembers_skip
      intro m hmem
      obtain ⟨e, he, hk, -⟩ :=
        (marshalEntries_members es ms hr).1 m ((mem_sortMembers m ms).mp hmem)
      simp only [lacksField, List.all_eq_true, Bool.not_eq_true'] at hl
      rw [← hk]
      exact hl e he
  | nilMap =>
    simp only [jsonMarshal, Except.ok.injEq] at hm
    subst hm
    rfl
  | bool b => simp [lacksField] at hl
  | number n => simp [lacksField] at hl
  | str s => simp [lacksField] at hl
  | nilSlice => simp [lacksField] at hl
  | bytes data => simp [lacksField] at hl
  | slice xs => simp [lacksField] at hl
  | encoded doc => simp [lacksField] at hl
  | unsupported => simp [lacksField] at hl

theorem decodeMembers_str (s : String) :
    ∀ (ms : List (String × Json)) (st : AzureEventHubsMetadata × Option GoError),
      (∀ m ∈ ms, matchesField m.1 = true → m.2 = .str s) →
      (∃ m ∈ ms, matchesField m.1 = true) →
      decodeMembers st ms = ({ ConnectionString := s }, st.2)
  | [], st, _, hex => by simp at hex
  | (k, v) :: ms, st, hall, hex => by
    have hall1 : ∀ m ∈ ms, matchesField m.1 = true → m.2 = .str s :=
      fun m hm => hall m (List.mem_cons_of_mem _ hm)
    by_cases hk : matchesField k = true
    · have hv : v = .str s := hall (k, v) (by simp) hk
      subst hv
      simp only [decodeMembers, hk, if_true, storeField]
      by_cases hrest : ∃ m ∈ ms, matchesField m.1 = true
      · exact decodeMembers_str s ms _ hall1 hrest
      · refine decodeMembers_skip _ ms (fun m hm => ?_)
        cases hmf : matchesField m.1 with
        | false => rfl
        | true => exact absurd ⟨m, hm, hmf⟩ hrest
    · obtain ⟨m, hm, hmf⟩ := hex
      rcases List.mem_cons.mp hm with rfl | hm
      · exact absurd hmf hk
      · simp only [Bool.not_eq_true] at hk
        simp only [decodeMembers, hk, Bool.false_eq_true, if_false]
        exact decodeMembers_str s ms st hall1 ⟨m, hm, hmf⟩

/-- A map whose entries all serialise, that has the entry `connectionString: s`,
and in which every key the decoder binds to the field carries the string `s`,
is a well-formed configuration with connection string `s`, whatever other
entries it has. -/
theorem connectionStringIs_of_entry (es : List (String × GoValue)) (s : String)
    (ms : List (String × Json)) (hm : marshalEntries es = .ok ms)
    (hin : ("connectionString", GoValue.str s) ∈ es)
    (hall : ∀ e ∈ es, matchesField e.1 = true → e.2 = .str s) :
    ConnectionStringIs (.map es) s := by
  obtain ⟨h1, h2⟩ := marshalEntries_members es ms hm
  refine ⟨.obj (sortMembers ms), by simp [jsonMarshal, hm], ?_⟩
  have hstart : decodeMembers ({ ConnectionString := "" }, none) (sortMembers ms) =
      ({ ConnectionString := s }, none) := by
    apply decodeMembers_str s
    · intro m hmem hmf
      obtain ⟨e, he, hk, hj⟩ := h1 m ((mem_sortMembers m ms).mp hmem)
      have hes := hall e he (by rw [hk]; exact hmf)
      rw [hes] at hj
      simp only [jsonMarshal, Except.ok.injEq] at hj
      exact hj.symm
    · obtain ⟨m, hmem, hk, hj⟩ := h2 _ hin
      refine ⟨m, (mem_sortMembers m ms).mpr hmem, ?_⟩
      rw [hk]
      exact (by decide : matchesField "connectionString" = true)
  simpa [jsonUnmarshal] using hstart

/-- A configuration with the single entry `connectionString: s`. -/
theorem connectionStringIs_single (s : String) :
    ConnectionStringIs (.map [("connectionString", .str s)]) s :=
  ⟨.obj [("connectionString", .str s)],
    by simp [jsonMarshal, marshalEntries, sortMembers, insertMember],
    by
      have h : matchesField "connectionString" = true := by decide
      simp [jsonUnmarshal, decodeMembers, h, storeField]⟩

/-- The encoder on byte slices of the three lengths modulo three, and on a nil
slice and a nil map. -/
theorem jsonMarshal_samples :
    jsonMarshal (.bytes [77, 97, 110]) = .ok (.str "TWFu") ∧
    jsonMarshal (.bytes [77, 97]) = .ok (.str "TWE=") ∧
    jsonMarshal (.bytes [77]) = .ok (.str "TQ==") ∧
    jsonMarshal (.bytes []) = .ok (.str "") ∧
    jsonMarshal .nilSlice = .ok .null ∧
    jsonMarshal .nilMap = .ok .null ∧
    jsonMarshal (.slice []) = .ok (.arr []) ∧
    jsonMarshal (.map []) = .ok (.obj []) ∧
    malformed .nilSlice = false ∧
    malformed (.map [("connectionString", .nilMap)]) = false ∧
    malformed (.slice []) = true ∧
    malformed (.map [("connectionString", .map [])]) = true ∧
    malformed (.bytes [77]) = true ∧
    keyLess "connectionString".data "connectionstring".data = true ∧
    keyLess "b".data "ab".data = false ∧
    sortMembers [("b", .null), ("a", .bool true), ("B", .num 1)] =
      [("B", .num 1), ("a", .bool true), ("b", .null)] := by
  exact ⟨rfl, rfl, rfl, rfl, rfl, rfl, rfl, rfl, rfl, rfl, rfl, rfl, rfl, rfl, rfl, rfl⟩

/-! ## The subscription loop -/

theorem receiveLoop_ok {κ σ : Type} (sdk : StreamClient κ) (hub : Hub) (handler : Handler σ) :
    ∀ (ps : List String) (w : World κ σ) (k1 : κ),
      subscribeAll sdk hub ps w.client = some k1 →
      receiveLoop sdk hub (callback handler) ps w =
        (none, { w with client := k1
                        effects := w.effects ++ ps.map (registration hub handler) })
  | [], w, k1, h => by
    simp only [subscribeAll, Option.some.injEq] at h
    subst h
    simp [receiveLoop]
  | p :: ps, w, k1, h => by
    simp only [subscribeAll] at h
    rcases hr : sdk.Receive hub p [.ReceiveWithLatestOffset] w.client with ⟨r, k2⟩
    rw [hr] at h
    cases r with
    | error e => simp at h
    | ok l =>
      simp only at h
      have ih := receiveLoop_ok sdk hub handler ps
        (w.step k2 (registration hub handler p)) k1 (by simpa [World.step] using h)
      simp only [receiveLoop, hr]
      simpa [World.step, registration] using ih

theorem receiveLoop_fail {κ σ : Type} (sdk : StreamClient κ) (hub : Hub) (handler : Handler σ)
    (p : String) (post : List String) (e : GoError) (k4 : κ) :
    ∀ (pre : List String) (w : World κ σ) (k3 : κ),
      subscribeAll sdk hub pre w.client = some k3 →
      sdk.Receive hub p [.ReceiveWithLatestOffset] k3 = (.error e, k4) →
      receiveLoop sdk hub (callback handler) (pre ++ p :: post) w =
        (some e, { w with client := k4
                          effects := w.effects ++ (pre ++ [p]).map (registration hub handler) })
  | [], w, k3, h, hp => by
    simp only [subscribeAll, Option.some.injEq] at h
    subst h
    simp [receiveLoop, hp, World.step, registration]
  | q :: pre, w, k3, h, hp => by
    simp only [subscribeAll] at h
    rcases hr : sdk.Receive hub q [.ReceiveWithLatestOffset] w.client with ⟨r, k2⟩
    rw [hr] at h
    cases r with
    | error e => simp at h
    | ok l =>
      simp only at h
      have ih := receiveLoop_fail sdk hub handler p post e k4 pre
        (w.step k2 (registration hub handler q)) k3 (by simpa [World.step] using h) hp
      simp only [List.cons_append, receiveLoop, hr]
      simpa [World.step, registration] using ih

theorem receiveLoop_none {κ σ : Type} (sdk : StreamClient κ) (hub : Hub) (handler : Handler σ) :
    ∀ (ps : List String) (w w1 : World κ σ),
      receiveLoop sdk hub (callback handler) ps w = (none, w1) →
      subscribeAll sdk hub ps w.client = some w1.client
  | [], w, w1, h => by
    simp only [receiveLoop, Prod.mk.injEq, true_and] at h
    subst h
    simp [subscribeAll]
  | p :: ps, w, w1, h => by
    simp only [receiveLoop] at h
    rcases hr : sdk.Receive hub p [.ReceiveWithLatestOffset] w.client with ⟨r, k2⟩
    rw [hr] at h
    cases r with
    | error e => simp at h
    | ok l =>
      simp only at h
      have ih := receiveLoop_none sdk hub handler ps _ w1 h
      simp only [subscribeAll, hr]
      simpa [World.step] using ih

theorem receiveLoop_frame {κ σ : Type} (sdk : StreamClient κ) (hub : Hub) (cb : Callback σ) :
    ∀ (ps : List String) (w : World κ σ),
      (receiveLoop sdk hub cb ps w).2.DefaultTransport = w.DefaultTransport ∧
      ∃ rest, (receiveLoop sdk hub cb ps w).2.effects = w.effects ++ rest
  | [], w => ⟨rfl, [], by simp [receiveLoop]⟩
  | p :: ps, w => by
    rcases hr : sdk.Receive hub p [.ReceiveWithLatestOffset] w.client with ⟨r, k2⟩
    cases r with
    | error e => simp [receiveLoop, hr, World.step]
    | ok l =>
      obtain ⟨h1, rest, h2⟩ := receiveLoop_frame sdk hub cb ps
        (w.step k2 (.receive hub p cb [.ReceiveWithLatestOffset]))
      simp only [receiveLoop, hr]
      refine ⟨by simpa [World.step] using h1, ?_⟩
      exact ⟨_ :: rest, by simpa [World.step] using h2⟩

/-! ## `Write` -/

/-- C3 (as amended). In a process whose default transport is an `*http.Transport`,
for a configuration whose `ConnectionInfo` is a map with string keys, all of whose
entries serialise, that has the entry `connectionString: s` for a string `s` of
valid UTF-8, and in which every key the decoder binds to the field (the name up
to letter case) carries that same `s`, and for a request with payload `d`: when
the client accepts the connection construction and the send, `Write` returns nil,
and what it did is exactly this, in order: it set the TLS configuration, opened
one connection from `s`, sent one event with `Data = d`, and wrote the log line.
There is no second construction, no second send and no `Close`. -/
theorem Write_success {κ σ : Type} (a : AzureEventHubs) (d : Bytes) (sdk : StreamClient κ)
    (w : World κ σ) (t : Transport) (es : List (String × GoValue))
    (ms : List (String × Json)) (s : String) (hub : Hub) (k1 k2 : κ)
    (ht : w.DefaultTransport = .transport t)
    (hci : a.Spec.ConnectionInfo = .map es)
    (hser : marshalEntries es = .ok ms)
    (hin : ("connectionString", GoValue.str s) ∈ es)
    (hall : ∀ e ∈ es, matchesField e.1 = true → e.2 = .str s)
    (hnew : sdk.NewHubFromConnectionString s w.client = (.ok hub, k1))
    (hsend : sdk.Send hub (eventOf d) k1 = (none, k2)) :
    Write a (some { Data := d }) sdk w =
      (.returned none,
        { DefaultTransport := withInsecureTLS t
          client := k2
          effects := w.effects ++
            [.setTLSClientConfig insecureTLS, .newHub s, .send hub (eventOf d),
             .logInfo "EventHubs event sent successfully"] }) := by
  have hs : ConnectionStringIs a.Spec.ConnectionInfo s := by
    rw [hci]
    exact connectionStringIs_of_entry es s ms hser hin hall
  obtain ⟨b, hm, hu⟩ := hs
  simp only [eventOf] at hsend
  simp [Write, ht, hm, hu, hnew, hsend, World.step, eventOf]

/-- C4 (as amended). In a process whose default transport is an `*http.Transport`,
for a well-formed configuration with connection string `s` and a request with
payload `d`, `Write` returns (it neither panics nor blocks), and
* if the connection construction fails with `e`, it returns `e` after that one
  construction and sends nothing;
* if the construction succeeds and the send fails with `e`, it returns `e` after
  one construction and one send;
* it returns nil exactly when both succeed. -/
theorem Write_errors {κ σ : Type} (a : AzureEventHubs) (d : Bytes) (sdk : StreamClient κ)
    (w : World κ σ) (t : Transport) (s : String)
    (ht : w.DefaultTransport = .transport t)
    (hs : ConnectionStringIs a.Spec.ConnectionInfo s) :
    (∃ r, (Write a (some { Data := d }) sdk w).1 = .returned r) ∧
    (∀ e k1, sdk.NewHubFromConnectionString s w.client = (.error e, k1) →
      Write a (some { Data := d }) sdk w =
        (.returned (some e),
          { DefaultTransport := withInsecureTLS t
            client := k1
            effects := w.effects ++ [.setTLSClientConfig insecureTLS, .newHub s] })) ∧
    (∀ hub k1 e k2, sdk.NewHubFromConnectionString s w.client = (.ok hub, k1) →
      sdk.Send hub (eventOf d) k1 = (some e, k2) →
      Write a (some { Data := d }) sdk w =
        (.returned (some e),
          { DefaultTransport := withInsecureTLS t
            client := k2
            effects := w.effects ++
              [.setTLSClientConfig insecureTLS, .newHub s, .send hub (eventOf d)] })) ∧
    ((Write a (some { Data := d }) sdk w).1 = .returned none ↔
      ∃ hub k1 k2, sdk.NewHubFromConnectionString s w.client = (.ok hub, k1) ∧
        sdk.Send hub (eventOf d) k1 = (none, k2)) := by
  obtain ⟨b, hm, hu⟩ := hs
  rcases hnew : sdk.NewHubFromConnectionString s w.client with ⟨r, k1⟩
  cases r with
  | error e =>
    refine ⟨⟨some e, ?_⟩, ?_, ?_, ?_⟩
    · simp [Write, ht, hm, hu, hnew]
    · intro e1 k hk
      simp only [Prod.mk.injEq, Except.error.injEq] at hk
      obtain ⟨rfl, rfl⟩ := hk
      simp [Write, ht, hm, hu, hnew, World.step]
    · intro hub k e1 k2 hk
      simp at hk
    · simp [Write, ht, hm, hu, hnew]
  | ok hub =>
    rcases hsend : sdk.Send hub { Data := d, PartitionKey := none, ID := "" } k1 with ⟨r, k2⟩
    cases r with
    | some e =>
      refine ⟨⟨some e, ?_⟩, ?_, ?_, ?_⟩
      · simp [Write, ht, hm, hu, hnew, hsend, World.step]
      · intro e1 k hk
        simp at hk
      · intro hub1 k e1 k3 hk hsd
        simp only [Prod.mk.injEq, Except.ok.injEq] at hk
        obtain ⟨rfl, rfl⟩ := hk
        simp only [eventOf, hsend, Prod.mk.injEq, Option.some.injEq] at hsd
        obtain ⟨rfl, rfl⟩ := hsd
        simp [Write, ht, hm, hu, hnew, hsend, World.step, eventOf]
      · simp only [Write, ht, hm, hu, hnew, hsend, World.step, eventOf]
        simp only [Prod.mk.injEq, Except.ok.injEq]
        constructor
        · intro h
          simp at h
        · rintro ⟨hub1, k, k3, ⟨rfl, rfl⟩, h⟩
          rw [hsend] at h
          simp at h
    | none =>
      refine ⟨⟨none, ?_⟩, ?_, ?_, ?_⟩
      · simp [Write, ht, hm, hu, hnew, hsend, World.step]
      · intro e1 k hk
        simp at hk
      · intro hub1 k e1 k3 hk hsd
        simp only [Prod.mk.injEq, Except.ok.injEq] at hk
        obtain ⟨rfl, rfl⟩ := hk
        simp [eventOf, hsend] at hsd
      · simp only [Write, ht, hm, hu, hnew, hsend, World.step, eventOf]
        simp only [Prod.mk.injEq, Except.ok.injEq, true_iff]
        exact ⟨hub, k1, k2, ⟨rfl, rfl⟩, hsend⟩

theorem Write_refused {κ σ : Type} (a : AzureEventHubs) (req : Option WriteRequest)
    (sdk : StreamClient κ) (w : World κ σ) (t : Transport) (s : String) (e : GoError) (k1 : κ)
    (ht : w.DefaultTransport = .transport t)
    (hs : ConnectionStringIs a.Spec.ConnectionInfo s)
    (hnew : sdk.NewHubFromConnectionString s w.client = (.error e, k1)) :
    Write a req sdk w =
      (.returned (some e),
        { DefaultTransport := withInsecureTLS t
          client := k1
          effects := w.effects ++ [.setTLSClientConfig insecureTLS, .newHub s] }) := by
  obtain ⟨b, hm, hu⟩ := hs
  simp [Write, ht, hm, hu, hnew, World.step]

theorem Write_starts {κ σ : Type} (a : AzureEventHubs) (req : Option WriteRequest)
    (sdk : StreamClient κ) (w : World κ σ) (t : Transport) (s : String)
    (ht : w.DefaultTransport = .transport t)
    (hs : ConnectionStringIs a.Spec.ConnectionInfo s) :
    ∃ rest, (Write a req sdk w).2.effects =
      w.effects ++ .setTLSClientConfig insecureTLS :: .newHub s :: rest := by
  obtain ⟨b, hm, hu⟩ := hs
  rcases hnew : sdk.NewHubFromConnectionString s w.client with ⟨r, k1⟩
  cases r with
  | error e => exact ⟨[], by simp [Write, ht, hm, hu, hnew, World.step]⟩
  | ok hub =>
    cases req with
    | none => exact ⟨[], by simp [Write, ht, hm, hu, hnew, World.step]⟩
    | some r =>
      rcases hsend : sdk.Send hub { Data := r.Data, PartitionKey := none, ID := "" } k1
        with ⟨eo, k2⟩
      cases eo with
      | some e => exact ⟨[.send hub (eventOf r.Data)], by
          simp [Write, ht, hm, hu, hnew, hsend, World.step, eventOf]⟩
      | none =>
        exact ⟨[.send hub (eventOf r.Data), .logInfo "EventHubs event sent successfully"], by
          simp [Write, ht, hm, hu, hnew, hsend, World.step, eventOf]⟩

/-! ## `Read` -/

theorem Read_unfold {κ σ : Type} (a : AzureEventHubs) (handler : Handler σ)
    (sdk : StreamClient κ) (interrupt : Option Signal) (w : World κ σ) (t : Transport)
    (s : String) (hub : Hub) (info : HubRuntimeInformation) (k1 k2 : κ)
    (ht : w.DefaultTransport = .transport t)
    (hs : ConnectionStringIs a.Spec.ConnectionInfo s)
    (hnew : sdk.NewHubFromConnectionString s w.client = (.ok hub, k1))
    (hinfo : sdk.GetRuntimeInformation hub k1 = (.ok info, k2)) :
    Read a handler sdk interrupt w =
      match receiveLoop sdk hub (callback handler) info.PartitionIDs
          { DefaultTransport := withInsecureTLS t
            client := k2
            effects := subscribed w.effects s hub handler [] } with
      | (some err, w1) => (.returned (some err), w1)
      | (none, w1) =>
        match interrupt with
        | none =>
          (.blocked,
            { w1 with effects := w1.effects ++ [.signalNotify [.Interrupt, .Kill], .signalWait] })
        | some sig =>
          (.returned none,
            { w1 with
              client := (sdk.Close hub w1.client).2
              effects := w1.effects ++
                [.signalNotify [.Interrupt, .Kill], .signalWait, .signalReceived sig,
                 .close hub] }) := by
  obtain ⟨b, hm, hu⟩ := hs
  simp only [Read, ht, hm, hu, hnew, hinfo, World.step, subscribed, List.map_nil,
    List.append_nil, List.append_assoc, List.singleton_append, List.cons_append,
    List.nil_append]

theorem Read_refused {κ σ : Type} (a : AzureEventHubs) (handler : Handler σ)
    (sdk : StreamClient κ) (interrupt : Option Signal) (w : World κ σ) (t : Transport)
    (s : String) (e : GoError) (k1 : κ)
    (ht : w.DefaultTransport = .transport t)
    (hs : ConnectionStringIs a.Spec.ConnectionInfo s)
    (hnew : sdk.NewHubFromConnectionString s w.client = (.error e, k1)) :
    Read a handler sdk interrupt w =
      (.returned (some e),
        { DefaultTransport := withInsecureTLS t
          client := k1
          effects := w.effects ++ [.setTLSClientConfig insecureTLS, .newHub s] }) := by
  obtain ⟨b, hm, hu⟩ := hs
  simp [Read, ht, hm, hu, hnew, World.step]

theorem Read_starts {κ σ : Type} (a : AzureEventHubs) (handler : Handler σ)
    (sdk : StreamClient κ) (interrupt : Option Signal) (w : World κ σ) (t : Transport)
    (s : String)
    (ht : w.DefaultTransport = .transport t)
    (hs : ConnectionStringIs a.Spec.ConnectionInfo s) :
    ∃ rest, (Read a handler sdk interrupt w).2.effects =
      w.effects ++ .setTLSClientConfig insecureTLS :: .newHub s :: rest := by
  rcases hnew : sdk.NewHubFromConnectionString s w.client with ⟨r, k1⟩
  cases r with
  | error e =>
    rw [Read_refused a handler sdk interrupt w t s e k1 ht hs hnew]
    exact ⟨[], by simp⟩
  | ok hub =>
    rcases hinfo : sdk.GetRuntimeInformation hub k1 with ⟨r, k2⟩
    cases r with
    | error e =>
      obtain ⟨b, hm, hu⟩ := hs
      exact ⟨[.getRuntimeInformation hub], by simp [Read, ht, hm, hu, hnew, hinfo, World.step]⟩
    | ok info =>
      rw [Read_unfold a handler sdk interrupt w t s hub info k1 k2 ht hs hnew hinfo]
      have hinv := receiveLoop_frame sdk hub (callback handler) info.PartitionIDs
        { DefaultTransport := withInsecureTLS t
          client := k2
          effects := subscribed w.effects s hub handler [] }
      rcases hl : receiveLoop sdk hub (callback handler) info.PartitionIDs
        { DefaultTransport := withInsecureTLS t
          client := k2
          effects := subscribed w.effects s hub handler [] } with ⟨eo, w2⟩
      rw [hl] at hinv
      obtain ⟨-, rest, hrest⟩ := hinv
      simp only at hrest
      cases eo with
      | some e =>
        simp only [hrest, subscribed]
        exact ⟨.getRuntimeInformation hub :: rest, by simp⟩
      | none =>
        cases interrupt with
        | none =>
          simp only [hrest, subscribed]
          exact ⟨.getRuntimeInformation hub ::
            (rest ++ [.signalNotify [.Interrupt, .Kill], .signalWait]), by simp⟩
        | some sig =>
          simp only [hrest, subscribed]
          exact ⟨.getRuntimeInformation hub ::
            (rest ++ [.signalNotify [.Interrupt, .Kill], .signalWait, .signalReceived sig,
              .close hub]), by simp⟩

/-- C5. In a process whose default transport is an `*http.Transport`, for a
well-formed configuration: when the connection construction, the partition query
and every subscription succeed, `Read` issues one `Receive` per partition id of
the query's answer, in the answer's order, each with the same callback and the
single option `ReceiveWithLatestOffset`, and only then registers for the signals
and starts waiting.  Without a signal it stays blocked; with one it closes the
connection and returns nil. -/
theorem Read_subscribes_all {κ σ : Type} (a : AzureEventHubs) (handler : Handler σ)
    (sdk : StreamClient κ) (interrupt : Option Signal) (w : World κ σ) (t : Transport)
    (s : String) (hub : Hub) (info : HubRuntimeInformation) (k1 k2 k3 : κ)
    (ht : w.DefaultTransport = .transport t)
    (hs : ConnectionStringIs a.Spec.ConnectionInfo s)
    (hnew : sdk.NewHubFromConnectionString s w.client = (.ok hub, k1))
    (hinfo : sdk.GetRuntimeInformation hub k1 = (.ok info, k2))
    (hsub : subscribeAll sdk hub info.PartitionIDs k2 = some k3) :
    Read a handler sdk interrupt w =
      match interrupt with
      | none =>
        (.blocked,
          { DefaultTransport := withInsecureTLS t
            client := k3
            effects :=
              w.effects ++
                [.setTLSClientConfig insecureTLS, .newHub s, .getRuntimeInformation hub] ++
              info.PartitionIDs.map
                (fun partitionID =>
                  .receive hub partitionID (callback handler) [.ReceiveWithLatestOffset]) ++
              [.signalNotify [.Interrupt, .Kill], .signalWait] })
      | some sig =>
        (.returned none,
          { DefaultTransport := withInsecureTLS t
            client := (sdk.Close hub k3).2
            effects :=
              w.effects ++
                [.setTLSClientConfig insecureTLS, .newHub s, .getRuntimeInformation hub] ++
              info.PartitionIDs.map
                (fun partitionID =>
                  .receive hub partitionID (callback handler) [.ReceiveWithLatestOffset]) ++
              [.signalNotify [.Interrupt, .Kill], .signalWait, .signalReceived sig,
               .close hub] }) := by
  rw [Read_unfold a handler sdk interrupt w t s hub info k1 k2 ht hs hnew hinfo,
    receiveLoop_ok sdk hub handler info.PartitionIDs _ k3 hsub]
  cases interrupt <;> simp [subscribed, registration]

/-- C7. In a process whose default transport is an `*http.Transport`, for a
well-formed configuration and an accepted connection construction:
* if the partition query fails with `e`, `Read` returns `e` and has issued no
  `Receive`;
* if the partitions are `pre ++ p :: post`, the subscriptions to `pre` succeed
  and the one to `p` fails with `e`, `Read` returns `e` and its `Receive` calls
  are those for `pre` followed by the failed one for `p`, none for `post`.
In both cases, whether or not a signal is pending, `Read` returns without
registering for signals, waiting, closing the connection or undoing a
subscription. -/
theorem Read_aborts {κ σ : Type} (a : AzureEventHubs) (handler : Handler σ)
    (sdk : StreamClient κ) (interrupt : Option Signal) (w : World κ σ) (t : Transport)
    (s : String) (hub : Hub) (k1 : κ)
    (ht : w.DefaultTransport = .transport t)
    (hs : ConnectionStringIs a.Spec.ConnectionInfo s)
    (hnew : sdk.NewHubFromConnectionString s w.client = (.ok hub, k1)) :
    (∀ e k2, sdk.GetRuntimeInformation hub k1 = (.error e, k2) →
      Read a handler sdk interrupt w =
        (.returned (some e),
          { DefaultTransport := withInsecureTLS t
            client := k2
            effects := w.effects ++
              [.setTLSClientConfig insecureTLS, .newHub s, .getRuntimeInformation hub] })) ∧
    (∀ info k2 pre p post k3 e k4,
      sdk.GetRuntimeInformation hub k1 = (.ok info, k2) →
      info.PartitionIDs = pre ++ p :: post →
      subscribeAll sdk hub pre k2 = some k3 →
      sdk.Receive hub p [.ReceiveWithLatestOffset] k3 = (.error e, k4) →
      Read a handler sdk interrupt w =
        (.returned (some e),
          { DefaultTransport := withInsecureTLS t
            client := k4
            effects :=
              w.effects ++
                [.setTLSClientConfig insecureTLS, .newHub s, .getRuntimeInformation hub] ++
              (pre ++ [p]).map
                (fun partitionID =>
                  .receive hub partitionID (callback handler)
                    [.ReceiveWithLatestOffset]) })) := by
  constructor
  · intro e k2 hinfo
    obtain ⟨b, hm, hu⟩ := hs
    simp [Read, ht, hm, hu, hnew, hinfo, World.step]
  · intro info k2 pre p post k3 e k4 hinfo hparts hpre hp
    rw [Read_unfold a handler sdk interrupt w t s hub info k1 k2 ht hs hnew hinfo, hparts,
      receiveLoop_fail sdk hub handler p post e k4 pre _ k3 hpre hp]
    simp [subscribed, registration]

/-- C8. Whenever `Read` returns nil, a signal was received, and the run was this:
the configuration was well formed, the connection construction, the partition
query and all subscriptions succeeded, then `Read` registered for the signals and
waited, received the signal, called `Close` once, and returned nil; the value
`Close` returns is not looked at. -/
theorem Read_returns_nil {κ σ : Type} (a : AzureEventHubs) (handler : Handler σ)
    (sdk : StreamClient κ) (interrupt : Option Signal) (w w1 : World κ σ)
    (h : Read a handler sdk interrupt w = (.returned none, w1)) :
    ∃ t s hub info sig k1 k2 k3,
      w.DefaultTransport = .transport t ∧
      ConnectionStringIs a.Spec.ConnectionInfo s ∧
      sdk.NewHubFromConnectionString s w.client = (.ok hub, k1) ∧
      sdk.GetRuntimeInformation hub k1 = (.ok info, k2) ∧
      subscribeAll sdk hub info.PartitionIDs k2 = some k3 ∧
      interrupt = some sig ∧
      w1 =
        { DefaultTransport := withInsecureTLS t
          client := (sdk.Close hub k3).2
          effects :=
            w.effects ++
              [.setTLSClientConfig insecureTLS, .newHub s, .getRuntimeInformation hub] ++
            info.PartitionIDs.map
              (fun partitionID =>
                .receive hub partitionID (callback handler) [.ReceiveWithLatestOffset]) ++
            [.signalNotify [.Interrupt, .Kill], .signalWait, .signalReceived sig,
             .close hub] } := by
  rcases ht : w.DefaultTransport with t | n
  swap
  · simp [Read, ht] at h
  rcases hm : jsonMarshal a.Spec.ConnectionInfo with e | b
  · simp [Read, ht, hm] at h
  rcases hu : jsonUnmarshal b with ⟨⟨s⟩, eo⟩
  cases eo with
  | some e => simp [Read, ht, hm, hu] at h
  | none =>
    have hs : ConnectionStringIs a.Spec.ConnectionInfo s := ⟨b, hm, hu⟩
    rcases hnew : sdk.NewHubFromConnectionString s w.client with ⟨r, k1⟩
    cases r with
    | error e => simp [Read, ht, hm, hu, hnew] at h
    | ok hub =>
      rcases hinfo : sdk.GetRuntimeInformation hub k1 with ⟨r, k2⟩
      cases r with
      | error e => simp [Read, ht, hm, hu, hnew, hinfo, World.step] at h
      | ok info =>
        rw [Read_unfold a handler sdk interrupt w t s hub info k1 k2 ht hs hnew hinfo] at h
        rcases hl : receiveLoop sdk hub (callback handler) info.PartitionIDs
          { DefaultTransport := withInsecureTLS t
            client := k2
            effects := subscribed w.effects s hub handler [] } with ⟨eo, w2⟩
        have hsub := receiveLoop_none sdk hub handler info.PartitionIDs
          { DefaultTransport := withInsecureTLS t
            client := k2
            effects := subscribed w.effects s hub handler [] } w2
        rw [hl] at h
        cases eo with
        | some e => simp at h
        | none =>
          have hk := hsub hl
          simp only at hk
          have hok := receiveLoop_ok sdk hub handler info.PartitionIDs
            { DefaultTransport := withInsecureTLS t
              client := k2
              effects := subscribed w.effects s hub handler [] } w2.client hk
          rw [hl] at hok
          simp only [Prod.mk.injEq, true_and] at hok
          cases interrupt with
          | none => simp at h
          | some sig =>
            refine ⟨t, s, hub, info, sig, k1, k2, w2.client, rfl, hs, hnew, hinfo, hk, rfl, ?_⟩
            simp only [Prod.mk.injEq, true_and] at h
            rw [← h, hok]
            simp [subscribed, registration]

/-- C6. The callback `Read` registers: on a non-nil event it runs the handler once,
on a response whose `Data` is the event's `Data`, and returns nil; on a nil event
it returns nil without running the handler.  What the handler returns plays no
part: two handlers that differ only in the errors they return give the same
callback, and over any sequence of events the callback returns nil each time and
has run the handler once per non-nil event, in order. -/
theorem callback_fire_and_forget {σ : Type} (handler : Handler σ) :
    (∀ (ev : Event) (st : σ),
      callback handler (some ev) st = (none, (handler { Data := ev.Data } st).2)) ∧
    (∀ st : σ, callback handler none st = (none, st)) ∧
    callback handler = callback (fun r st => (none, (handler r st).2)) ∧
    (∀ (evs : List (Option Event)) (st : σ),
      deliver (callback handler) evs st =
        (evs.map (fun _ => none),
          (evs.filterMap id).foldl (fun acc ev => (handler { Data := ev.Data } acc).2) st)) := by
  refine ⟨fun _ _ => rfl, fun _ => rfl, rfl, ?_⟩
  intro evs
  induction evs with
  | nil => intro st; rfl
  | cons ev evs ih =>
    intro st
    cases ev with
    | none => simp [deliver, callback, ih]
    | some e => simp [deliver, callback, ih]

/-- C9. `Init` returns nil for every metadata value, touches neither the process
nor the client, and leaves the binding holding exactly the metadata it was given.
So a second `Init` overwrites the first, and a `Write` or `Read` after
`Init m1; Init m2` runs as it does on a binding that only ever saw `m2`. -/
theorem Init_overwrites {κ σ : Type} (a a0 : AzureEventHubs) (m1 m2 : Metadata)
    (w : World κ σ) :
    Init a m1 w = (.returned none, { Spec := m1 }, w) ∧
    Init (Init a m1 w).2.1 m2 (Init a m1 w).2.2 = Init a m2 w ∧
    (∀ (req : Option WriteRequest) (sdk : StreamClient κ) (w1 : World κ σ),
      Write (Init (Init a m1 w).2.1 m2 w).2.1 req sdk w1 =
        Write (Init a0 m2 w).2.1 req sdk w1) ∧
    (∀ (handler : Handler σ) (sdk : StreamClient κ) (interrupt : Option Signal)
        (w1 : World κ σ),
      Read (Init (Init a m1 w).2.1 m2 w).2.1 handler sdk interrupt w1 =
        Read (Init a0 m2 w).2.1 handler sdk interrupt w1) :=
  ⟨rfl, rfl, fun _ _ _ => rfl, fun _ _ _ _ => rfl⟩

/-- C10 (as amended). In a process whose default transport is an `*http.Transport`
`t`, every `Write` and every `Read`, however it ends, leaves the default transport
equal to `t` with its `TLSClientConfig` replaced by one that has
`InsecureSkipVerify = true`, and that replacement is the first effect of the call.
`Init` and `NewAzureEventHubs` leave the world as it is. -/
theorem tls_verification_disabled {κ σ : Type} (a : AzureEventHubs)
    (req : Option WriteRequest) (handler : Handler σ) (sdk : StreamClient κ)
    (interrupt : Option Signal) (m : Metadata) (w : World κ σ) (t : Transport)
    (ht : w.DefaultTransport = .transport t) :
    ((Write a req sdk w).2.DefaultTransport = withInsecureTLS t ∧
      ∃ rest, (Write a req sdk w).2.effects =
        w.effects ++ .setTLSClientConfig insecureTLS :: rest) ∧
    ((Read a handler sdk interrupt w).2.DefaultTransport = withInsecureTLS t ∧
      ∃ rest, (Read a handler sdk interrupt w).2.effects =
        w.effects ++ .setTLSClientConfig insecureTLS :: rest) ∧
    (Init a m w).2.2 = w ∧ (NewAzureEventHubs w).2 = w := by
  refine ⟨?_, ?_, rfl, rfl⟩
  · rcases hm : jsonMarshal a.Spec.ConnectionInfo with e | b
    · simp [Write, ht, hm]
    rcases hu : jsonUnmarshal b with ⟨⟨s⟩, eo⟩
    cases eo with
    | some e => simp [Write, ht, hm, hu]
    | none =>
      rcases hnew : sdk.NewHubFromConnectionString s w.client with ⟨r, k1⟩
      cases r with
      | error e => simp [Write, ht, hm, hu, hnew, World.step]
      | ok hub =>
        cases req with
        | none => simp [Write, ht, hm, hu, hnew, World.step]
        | some r =>
          rcases hsend : sdk.Send hub (eventOf r.Data) k1 with ⟨eo, k2⟩
          simp only [eventOf] at hsend
          cases eo <;> simp [Write, ht, hm, hu, hnew, hsend, World.step]
  · rcases hm : jsonMarshal a.Spec.ConnectionInfo with e | b
    · simp [Read, ht, hm]
    rcases hu : jsonUnmarshal b with ⟨⟨s⟩, eo⟩
    cases eo with
    | some e => simp [Read, ht, hm, hu]
    | none =>
      have hs : ConnectionStringIs a.Spec.ConnectionInfo s := ⟨b, hm, hu⟩
      rcases hnew : sdk.NewHubFromConnectionString s w.client with ⟨r, k1⟩
      cases r with
      | error e => simp [Read, ht, hm, hu, hnew, World.step]
      | ok hub =>
        rcases hinfo : sdk.GetRuntimeInformation hub k1 with ⟨r, k2⟩
        cases r with
        | error e => simp [Read, ht, hm, hu, hnew, hinfo, World.step]
        | ok info =>
          rw [Read_unfold a handler sdk interrupt w t s hub info k1 k2 ht hs hnew hinfo]
          have hinv := receiveLoop_frame sdk hub (callback handler) info.PartitionIDs
            { DefaultTransport := withInsecureTLS t
              client := k2
              effects := subscribed w.effects s hub handler [] }
          rcases hl : receiveLoop sdk hub (callback handler) info.PartitionIDs
            { DefaultTransport := withInsecureTLS t
              client := k2
              effects := subscribed w.effects s hub handler [] } with ⟨eo, w2⟩
          rw [hl] at hinv
          obtain ⟨hdt, rest, hrest⟩ := hinv
          simp only at hdt hrest
          cases eo with
          | some e =>
            refine ⟨hdt, ?_⟩
            simp only [hrest, subscribed]
            exact ⟨.newHub s :: .getRuntimeInformation hub :: rest, by simp⟩
          | none =>
            cases interrupt with
            | none =>
              refine ⟨hdt, ?_⟩
              simp only [hrest, subscribed]
              exact ⟨.newHub s :: .getRuntimeInformation hub ::
                (rest ++ [.signalNotify [.Interrupt, .Kill], .signalWait]), by simp⟩
            | some sig =>
              refine ⟨hdt, ?_⟩
              simp only [hrest, subscribed]
              exact ⟨.newHub s :: .getRuntimeInformation hub ::
                (rest ++ [.signalNotify [.Interrupt, .Kill], .signalWait, .signalReceived sig,
                  .close hub]), by simp⟩

/-! ## Configurations without a usable connection string -/

/-- C1 (as amended). In a process whose default transport is an `*http.Transport`,
for a stored configuration whose `ConnectionInfo` serialises and has no
`connectionString` field (the nil value, the empty map, or a map without a key
the decoder binds to the field): the connection string decodes to the empty
string, and both `Write` and `Read` call the connection construction with it
right after setting the TLS configuration; when that construction fails with `e`,
both return `e` and have made no other call on the client. -/
theorem missing_connectionString {κ σ : Type} (a : AzureEventHubs)
    (req : Option WriteRequest) (handler : Handler σ) (sdk : StreamClient κ)
    (interrupt : Option Signal) (w : World κ σ) (t : Transport) (doc : Json)
    (ht : w.DefaultTransport = .transport t)
    (hl : lacksField a.Spec.ConnectionInfo = true)
    (hm : jsonMarshal a.Spec.ConnectionInfo = .ok doc) :
    ConnectionStringIs a.Spec.ConnectionInfo "" ∧
    (∃ rest, (Write a req sdk w).2.effects =
      w.effects ++ .setTLSClientConfig insecureTLS :: .newHub "" :: rest) ∧
    (∃ rest, (Read a handler sdk interrupt w).2.effects =
      w.effects ++ .setTLSClientConfig insecureTLS :: .newHub "" :: rest) ∧
    (∀ e k1, sdk.NewHubFromConnectionString "" w.client = (.error e, k1) →
      Write a req sdk w =
        (.returned (some e),
          { DefaultTransport := withInsecureTLS t
            client := k1
            effects := w.effects ++ [.setTLSClientConfig insecureTLS, .newHub ""] }) ∧
      Read a handler sdk interrupt w =
        (.returned (some e),
          { DefaultTransport := withInsecureTLS t
            client := k1
            effects := w.effects ++ [.setTLSClientConfig insecureTLS, .newHub ""] })) := by
  have hs := lacksField_empty a.Spec.ConnectionInfo doc hl hm
  exact ⟨hs, Write_starts a req sdk w t "" ht hs, Read_starts a handler sdk interrupt w t "" ht hs,
    fun e k1 hnew => ⟨Write_refused a req sdk w t "" e k1 ht hs hnew,
      Read_refused a handler sdk interrupt w t "" e k1 ht hs hnew⟩⟩

/-- C2 (as amended). In a process whose default transport is an `*http.Transport`,
for a stored configuration whose `ConnectionInfo` cannot be serialised, or
serialises to a boolean, a number, a string or an array, or serialises to an
object in which a key bound to `connectionString` carries a value that is
neither a string nor `null`: `Write` and `Read` return the same non-nil error, an
error of `encoding/json`, and have made no call on the client: no hub is
constructed, nothing is sent, no partition is queried or subscribed, and `Read`
neither registers for signals nor waits. -/
theorem malformed_configuration {κ σ : Type} (a : AzureEventHubs)
    (req : Option WriteRequest) (handler : Handler σ) (sdk : StreamClient κ)
    (interrupt : Option Signal) (w : World κ σ) (t : Transport)
    (ht : w.DefaultTransport = .transport t)
    (hbad : malformed a.Spec.ConnectionInfo = true) :
    ∃ e, e.isConfigError = true ∧
      Write a req sdk w =
        (.returned (some e),
          { DefaultTransport := withInsecureTLS t
            client := w.client
            effects := w.effects ++ [.setTLSClientConfig insecureTLS] }) ∧
      Read a handler sdk interrupt w =
        (.returned (some e),
          { DefaultTransport := withInsecureTLS t
            client := w.client
            effects := w.effects ++ [.setTLSClientConfig insecureTLS] }) := by
  unfold malformed at hbad
  rcases hm : jsonMarshal a.Spec.ConnectionInfo with e | doc
  · refine ⟨e, ?_, ?_, ?_⟩
    · rw [jsonMarshal_config _ e hm]
      rfl
    · simp [Write, ht, hm]
    · simp [Read, ht, hm]
  · rw [hm] at hbad
    simp only at hbad
    rcases hu : jsonUnmarshal doc with ⟨c, eo⟩
    cases eo with
    | none =>
      have h1 := (jsonUnmarshal_error doc).mp (by rw [hu])
      rw [hbad] at h1
      exact absurd h1 (by simp)
    | some e =>
      refine ⟨e, jsonUnmarshal_config doc e (by rw [hu]), ?_, ?_⟩
      · simp [Write, ht, hm, hu]
      · simp [Read, ht, hm, hu]

/-! ## Sample runs -/

/-- C1 as stated fails on the empty map `{}`: with a client that refuses the empty
connection string, `Write` and `Read` do call the connection construction, with
`""`, and the error they return is the client's, not a configuration error; with
a client that accepts it, `Write` sends the event and returns nil. -/
theorem missing_connectionString_refuted :
    lacksField (.map []) = true ∧
    Write (bindingOf (.map [])) (some { Data := [1] }) simClient freshWorld =
      (.returned (some (.sdk 1)),
        { DefaultTransport := withInsecureTLS freshTransport
          client := 1
          effects := [.setTLSClientConfig insecureTLS, .newHub ""] }) ∧
    Read (bindingOf (.map [])) failingHandler simClient (some .Interrupt) freshWorld =
      (.returned (some (.sdk 1)),
        { DefaultTransport := withInsecureTLS freshTransport
          client := 1
          effects := [.setTLSClientConfig insecureTLS, .newHub ""] }) ∧
    (GoError.sdk 1).isConfigError = false ∧
    Write (bindingOf (.map [])) (some { Data := [1] }) lenientClient freshWorld =
      (.returned none,
        { DefaultTransport := withInsecureTLS freshTransport
          client := 2
          effects := [.setTLSClientConfig insecureTLS, .newHub "",
            .send { id := 0 } (eventOf [1]), .logInfo "EventHubs event sent successfully"] }) :=
  ⟨rfl, rfl, rfl, rfl, rfl⟩

theorem missing_connectionString_witness :
    ConnectionStringIs GoValue.nil "" ∧
    Write (bindingOf .nil) (some { Data := [1] }) simClient freshWorld =
      (.returned (some (.sdk 1)),
        { DefaultTransport := withInsecureTLS freshTransport
          client := 1
          effects := [.setTLSClientConfig insecureTLS, .newHub ""] }) :=
  ⟨(missing_connectionString (bindingOf .nil) (some { Data := [1] }) failingHandler simClient
      (some .Interrupt) freshWorld freshTransport .null rfl rfl rfl).1,
   ((missing_connectionString (bindingOf .nil) (some { Data := [1] }) failingHandler simClient
      (some .Interrupt) freshWorld freshTransport .null rfl rfl rfl).2.2.2
      (.sdk 1) 1 rfl).1⟩

/-- C2 as stated fails on a nil `ConnectionInfo`, which serialises to `null` and
not to an object, and on `connectionString: null`, whose value is not a string:
the decoder accepts both, and `Write` goes on to construct a connection from the
empty string and to send the event. -/
theorem malformed_configuration_refuted :
    jsonMarshal .nil = .ok .null ∧
    Write (bindingOf .nil) (some { Data := [1] }) lenientClient freshWorld =
      (.returned none,
        { DefaultTransport := withInsecureTLS freshTransport
          client := 2
          effects := [.setTLSClientConfig insecureTLS, .newHub "",
            .send { id := 0 } (eventOf [1]), .logInfo "EventHubs event sent successfully"] }) ∧
    jsonMarshal (.map [("connectionString", .nil)]) = .ok (.obj [("connectionString", .null)]) ∧
    Write (bindingOf (.map [("connectionString", .nil)])) (some { Data := [1] }) lenientClient
        freshWorld =
      (.returned none,
        { DefaultTransport := withInsecureTLS freshTransport
          client := 2
          effects := [.setTLSClientConfig insecureTLS, .newHub "",
            .send { id := 0 } (eventOf [1]), .logInfo "EventHubs event sent successfully"] }) ∧
    Write (bindingOf .nil) (some { Data := [1] }) simClient freshWorld =
      (.returned (some (.sdk 1)),
        { DefaultTransport := withInsecureTLS freshTransport
          client := 1
          effects := [.setTLSClientConfig insecureTLS, .newHub ""] }) ∧
    Read (bindingOf .nil) failingHandler lenientClient none freshWorld =
      (.blocked,
        { DefaultTransport := withInsecureTLS freshTransport
          client := 4
          effects := [.setTLSClientConfig insecureTLS, .newHub "",
            .getRuntimeInformation { id := 0 },
            registration { id := 0 } failingHandler "0",
            registration { id := 0 } failingHandler "1",
            .signalNotify [.Interrupt, .Kill], .signalWait] }) :=
  ⟨rfl, rfl, rfl, rfl, rfl, rfl⟩

theorem malformed_configuration_witness :
    malformed (.map [("connectionString", .number 5)]) = true ∧
    ∃ e, e.isConfigError = true ∧
      Write (bindingOf (.map [("connectionString", .number 5)])) (some { Data := [1] })
          lenientClient freshWorld =
        (.returned (some e),
          { DefaultTransport := withInsecureTLS freshTransport
            client := 0
            effects := [.setTLSClientConfig insecureTLS] }) ∧
      Read (bindingOf (.map [("connectionString", .number 5)])) failingHandler lenientClient
          (some .Interrupt) freshWorld =
        (.returned (some e),
          { DefaultTransport := withInsecureTLS freshTransport
            client := 0
            effects := [.setTLSClientConfig insecureTLS] }) :=
  ⟨rfl, malformed_configuration (bindingOf (.map [("connectionString", .number 5)]))
    (some { Data := [1] }) failingHandler lenientClient (some .Interrupt) freshWorld
    freshTransport rfl rfl⟩

/-- C3 as stated fails on a configuration that has `connectionString: "good"`
next to `connectionstring: "evil"`: the encoder writes the keys in ascending
order, the decoder binds both to the field, the later one wins, and `Write`
opens its connection from `"evil"`, in whichever order the map lists them. -/
theorem Write_uses_last_bound_key :
    Write (bindingOf (.map [("connectionString", .str "good"), ("connectionstring", .str "evil")]))
        (some { Data := [1, 2] }) simClient freshWorld =
      (.returned none,
        { DefaultTransport := withInsecureTLS freshTransport
          client := 2
          effects :=
            [.setTLSClientConfig insecureTLS, .newHub "evil", .send { id := 4 } (eventOf [1, 2]),
             .logInfo "EventHubs event sent successfully"] }) ∧
    Write (bindingOf (.map [("connectionstring", .str "evil"), ("connectionString", .str "good")]))
        (some { Data := [1, 2] }) simClient freshWorld =
      (.returned none,
        { DefaultTransport := withInsecureTLS freshTransport
          client := 2
          effects :=
            [.setTLSClientConfig insecureTLS, .newHub "evil", .send { id := 4 } (eventOf [1, 2]),
             .logInfo "EventHubs event sent successfully"] }) :=
  ⟨rfl, rfl⟩

theorem Write_success_witness :
    Write (bindingOf (.map [("consumerGroup", .str "g"), ("connectionString", .str "abc")]))
        (some { Data := [1, 2] }) simClient freshWorld =
      (.returned none,
        { DefaultTransport := withInsecureTLS freshTransport
          client := 2
          effects := [] ++
            [.setTLSClientConfig insecureTLS, .newHub "abc", .send { id := 3 } (eventOf [1, 2]),
             .logInfo "EventHubs event sent successfully"] }) :=
  Write_success (bindingOf (.map [("consumerGroup", .str "g"), ("connectionString", .str "abc")]))
    [1, 2] simClient freshWorld freshTransport
    [("consumerGroup", .str "g"), ("connectionString", .str "abc")]
    [("consumerGroup", .str "g"), ("connectionString", .str "abc")] "abc" { id := 3 } 1 2
    rfl rfl rfl (by simp)
    (fun e he hk => by
      simp only [List.mem_cons, List.mem_singleton, List.not_mem_nil, or_false] at he
      rcases he with rfl | rfl
      · exact absurd hk (by decide)
      · rfl)
    rfl rfl

/-- C4 as stated fails in a process where `http.DefaultTransport` holds a
`RoundTripper` that is not an `*http.Transport`: for a well-formed configuration
and a payload, the type assertion in the first statement of `Write` panics,
before any call on the client. -/
theorem Write_panics :
    ConnectionStringIs (configured "abc").Spec.ConnectionInfo "abc" ∧
    Write (configured "abc") (some { Data := [1, 2] }) simClient wrappedWorld =
      (.panicked, { DefaultTransport := .other 1, client := 0, effects := [] }) :=
  ⟨connectionStringIs_single "abc", rfl⟩

theorem Write_errors_witness :
    Write (configured "abc") (some { Data := [] }) simClient freshWorld =
      (.returned (some (.sdk 2)),
        { DefaultTransport := withInsecureTLS freshTransport
          client := 2
          effects := [] ++
            [.setTLSClientConfig insecureTLS, .newHub "abc", .send { id := 3 } (eventOf [])] }) :=
  (Write_errors (configured "abc") [] simClient freshWorld freshTransport "abc" rfl
    (connectionStringIs_single "abc")).2.2.1 { id := 3 } 1 (.sdk 2) 2 rfl rfl

theorem Read_subscribes_all_witness :
    Read (configured "abc") failingHandler simClient none freshWorld =
      (.blocked,
        { DefaultTransport := withInsecureTLS freshTransport
          client := 5
          effects := [.setTLSClientConfig insecureTLS, .newHub "abc",
            .getRuntimeInformation { id := 3 },
            .receive { id := 3 } "0" (callback failingHandler) [.ReceiveWithLatestOffset],
            .receive { id := 3 } "1" (callback failingHandler) [.ReceiveWithLatestOffset],
            .receive { id := 3 } "2" (callback failingHandler) [.ReceiveWithLatestOffset],
            .signalNotify [.Interrupt, .Kill], .signalWait] }) :=
  Read_subscribes_all (configured "abc") failingHandler simClient none freshWorld freshTransport
    "abc" { id := 3 } { Path := "hub", PartitionCount := 3, PartitionIDs := ["0", "1", "2"] }
    1 2 5 rfl (connectionStringIs_single "abc") rfl rfl rfl

theorem Read_aborts_witness :
    Read (configured "a") failingHandler simClient (some .Interrupt) freshWorld =
      (.returned (some (.sdk 3)),
        { DefaultTransport := withInsecureTLS freshTransport
          client := 2
          effects := [] ++
            [.setTLSClientConfig insecureTLS, .newHub "a", .getRuntimeInformation { id := 1 }] }) ∧
    Read (configured "ab") failingHandler simClient (some .Interrupt) freshWorld =
      (.returned (some (.sdk 4)),
        { DefaultTransport := withInsecureTLS freshTransport
          client := 4
          effects := [.setTLSClientConfig insecureTLS, .newHub "ab",
            .getRuntimeInformation { id := 2 },
            .receive { id := 2 } "0" (callback failingHandler) [.ReceiveWithLatestOffset],
            .receive { id := 2 } "1" (callback failingHandler) [.ReceiveWithLatestOffset]] }) :=
  ⟨(Read_aborts (configured "a") failingHandler simClient (some .Interrupt) freshWorld
      freshTransport "a" { id := 1 } 1 rfl (connectionStringIs_single "a") rfl).1 (.sdk 3) 2 rfl,
   (Read_aborts (configured "ab") failingHandler simClient (some .Interrupt) freshWorld
      freshTransport "ab" { id := 2 } 1 rfl (connectionStringIs_single "ab") rfl).2
      { Path := "hub", PartitionCount := 3, PartitionIDs := ["0", "1", "2"] } 2 ["0"] "1" ["2"]
      3 (.sdk 4) 4 rfl rfl rfl rfl⟩

theorem Read_returns_nil_witness :
    simClient.Close { id := 3 } 5 = (some (.sdk 5), 6) ∧
    Read (configured "abc") failingHandler simClient (some .Interrupt) freshWorld =
      (.returned none, interruptedWorld) ∧
    ∃ t s hub info sig k1 k2 k3,
      freshWorld.DefaultTransport = .transport t ∧
      ConnectionStringIs (configured "abc").Spec.ConnectionInfo s ∧
      simClient.NewHubFromConnectionString s freshWorld.client = (.ok hub, k1) ∧
      simClient.GetRuntimeInformation hub k1 = (.ok info, k2) ∧
      subscribeAll simClient hub info.PartitionIDs k2 = some k3 ∧
      some Signal.Interrupt = some sig ∧
      interruptedWorld =
        { DefaultTransport := withInsecureTLS t
          client := (simClient.Close hub k3).2
          effects :=
            freshWorld.effects ++
              [.setTLSClientConfig insecureTLS, .newHub s, .getRuntimeInformation hub] ++
            info.PartitionIDs.map
              (fun partitionID =>
                .receive hub partitionID (callback failingHandler)
                  [.ReceiveWithLatestOffset]) ++
            [.signalNotify [.Interrupt, .Kill], .signalWait, .signalReceived sig,
             .close hub] } :=
  ⟨rfl, rfl, Read_returns_nil (configured "abc") failingHandler simClient (some .Interrupt)
    freshWorld interruptedWorld rfl⟩

/-- C10 as stated fails in a process where `http.DefaultTransport` holds a
`RoundTripper` that is not an `*http.Transport`: the call panics on its first
statement and the default transport is what it was, with no TLS configuration
set by the call. -/
theorem tls_untouched_on_panic :
    (Read (configured "abc") failingHandler simClient (some .Interrupt) wrappedWorld).1 =
      .panicked ∧
    (Read (configured "abc") failingHandler simClient (some .Interrupt)
      wrappedWorld).2.DefaultTransport = .other 1 ∧
    (Read (configured "abc") failingHandler simClient (some .Interrupt)
      wrappedWorld).2.effects = [] ∧
    (Write (bindingOf .unsupported) (some { Data := [1] }) simClient wrappedWorld).1 =
      .panicked ∧
    (Write (bindingOf .unsupported) (some { Data := [1] }) simClient
      wrappedWorld).2.DefaultTransport = .other 1 :=
  ⟨rfl, rfl, rfl, rfl, rfl⟩

theorem tls_verification_disabled_witness :
    (Write (bindingOf .unsupported) none simClient freshWorld).2.DefaultTransport =
      .transport
        { TLSClientConfig := some { InsecureSkipVerify := true, ServerName := "", MinVersion := 0 }
          MaxIdleConns := 100 } ∧
    (Write (bindingOf .unsupported) none simClient freshWorld).1 =
      .returned (some .jsonUnsupportedType) :=
  ⟨(tls_verification_disabled (bindingOf .unsupported) none failingHandler simClient none
      (bindingOf .nil).Spec freshWorld freshTransport rfl).1.1, rfl⟩

end EventHubs
